import Mathlib

/-
Verification of the go-forth response-rendering engine against its
specification.  The Go source (main.go) is embedded shallowly:

* Go strings are modelled as Lean `String`s (sequences of characters; the
  bodies and URLs exercised here are ASCII, where Go's byte-level `len`,
  slicing and `strings` functions coincide with character-level ones).
* The JSON value tree produced by `json.Unmarshal` into `interface{}` is the
  tagged union `JValue`; an object carries its key/value pairs in the
  enumeration order that the Go `range` over the map actually yields
  (Go fixes no such order).  JSON numbers carry the text that Go's
  `fmt.Sprintf("%v", f)` produces for the underlying float64, since no
  claim depends on float formatting itself.
* `bytes.Buffer.Truncate` panics when its argument is negative; this is
  modelled by `goTruncateBuf` returning `none` exactly in Go's panic cases,
  so the rendering functions return `Option String`.
* The lipgloss styles are process-global in Go; they are passed explicitly
  as a `Styles` record of marker functions (identity = unstyled output).
-/

namespace GoForth

/-- Take the first `n` characters of a string, Go `s[:n]` on ASCII data. -/
def strTake (s : String) (n : Nat) : String := ⟨s.data.take n⟩

/-- Is `pat` a contiguous infix of `s`?  Models Go `strings.Contains(s, pat)`
(second argument of Contains is the pattern). -/
def isInfixOf (pat : List Char) : List Char → Bool
  | [] => pat.isEmpty
  | c :: t => pat.isPrefixOf (c :: t) || isInfixOf pat t

/-- Go `strings.Contains(s, pat)`. -/
def strContains (s pat : String) : Bool := isInfixOf pat.data s.data

/-- ASCII whitespace, the fragment of Unicode whitespace exercised here. -/
def isSpaceChar (c : Char) : Bool :=
  c == ' ' || c == '\t' || c == '\n' || c == '\r'

/-- Go `strings.TrimSpace` on ASCII data. -/
def trimSpace (s : String) : String :=
  ⟨((s.data.dropWhile isSpaceChar).reverse.dropWhile isSpaceChar).reverse⟩

/-- Go `strings.Repeat s n`. -/
def goRepeat (s : String) : Nat → String
  | 0 => ""
  | n + 1 => s ++ goRepeat s n

/-- `const indentation = "  "` (main.go line 37). -/
def indentation : String := "  "

/-- Go `fmt.Sprintf("%q-ish", s)` as used in renderJSON: `"` ++ s ++ `"`. -/
def quoteStr (s : String) : String := "\"" ++ s ++ "\""

/-- `bytes.Buffer.Truncate n` on contents `s`: Go panics when `n < 0` or
`n > len(s)` (modelled as `none`), otherwise keeps the first `n` bytes. -/
def goTruncateBuf (s : String) (n : Int) : Option String :=
  if n < 0 then none
  else if (s.length : Int) < n then none
  else some (strTake s n.toNat)

mutual

/-- The JSON value tree that `json.Unmarshal` into `interface{}` yields.
`obj` lists the key/value pairs in the enumeration order the Go `range`
over the map produces; `num` carries the `%v` rendering of the float64;
`other` stands for a dynamic type matching none of the six cases of the
`switch` in renderJSON. -/
inductive JValue where
  | obj : JMembers → JValue
  | arr : JElems → JValue
  | str : String → JValue
  | num : String → JValue
  | bool : Bool → JValue
  | null : JValue
  | other : JValue

/-- Key/value pairs of a JSON object, in enumeration order. -/
inductive JMembers where
  | nil : JMembers
  | cons : String → JValue → JMembers → JMembers

/-- Elements of a JSON array, in order. -/
inductive JElems where
  | nil : JElems
  | cons : JValue → JElems → JElems

end

end GoForth

namespace GoForth

/-- The key/value pairs of an object, as a list in enumeration order. -/
def JMembers.toList : JMembers → List (String × JValue)
  | .nil => []
  | .cons k v rest => (k, v) :: JMembers.toList rest

/-- The styling configuration: one marker function per token category
(key, string, number, boolean, null), standing for the lipgloss styles. -/
structure Styles where
  key : String → String
  strv : String → String
  numv : String → String
  boolv : String → String
  nullv : String → String

/-- The no-op styling scheme: output "modulo styling markers". -/
def noStyle : Styles := ⟨id, id, id, id, id⟩

/-- A visible marker styling scheme, used to exhibit where the styling
markers land (leaf tokens only, never structural punctuation). -/
def tagStyle : Styles :=
  ⟨fun s => "<key>" ++ s ++ "</key>",
   fun s => "<str>" ++ s ++ "</str>",
   fun s => "<num>" ++ s ++ "</num>",
   fun s => "<bool>" ++ s ++ "</bool>",
   fun s => "<null>" ++ s ++ "</null>"⟩

mutual

/-- renderJSON (main.go lines 175-212).  The buffer is reconstructed as the
concatenation of the successive WriteString arguments; the
`buf.Truncate(buf.Len() - 2)` of the object/array cases is `goTruncateBuf`
applied to the buffer contents so far. -/
def renderJSON (st : Styles) : JValue → Nat → Option String
  | .obj ps, level => do
      let inner ← renderMembers st ps level
      let full := "\x7b\n" ++ inner
      let t ← goTruncateBuf full ((full.length : Int) - 2)
      pure (t ++ "\n" ++ goRepeat indentation level ++ "\x7d")
  | .arr es, level => do
      let inner ← renderElems st es level
      let full := "[\n" ++ inner
      let t ← goTruncateBuf full ((full.length : Int) - 2)
      pure (t ++ "\n" ++ goRepeat indentation level ++ "]")
  | .str s, _ => pure (st.strv (quoteStr s))
  | .num lit, _ => pure (st.numv lit)
  | .bool b, _ => pure (st.boolv (if b then "true" else "false"))
  | .null, _ => pure (st.nullv "null")
  | .other, _ => pure ""

/-- The object loop of renderJSON: for each pair, indent+indentation, the
styled quoted key, ": ", the value at level+1, ",\n". -/
def renderMembers (st : Styles) : JMembers → Nat → Option String
  | .nil, _ => pure ""
  | .cons k v rest, level => do
      let rv ← renderJSON st v (level + 1)
      let rr ← renderMembers st rest level
      pure (goRepeat indentation level ++ indentation ++ st.key (quoteStr k)
        ++ ": " ++ rv ++ ",\n" ++ rr)

/-- The array loop of renderJSON: for each item, indent+indentation, the
item at level+1, ",\n". -/
def renderElems (st : Styles) : JElems → Nat → Option String
  | .nil, _ => pure ""
  | .cons v rest, level => do
      let rv ← renderJSON st v (level + 1)
      let rr ← renderElems st rest level
      pure (goRepeat indentation level ++ indentation ++ rv ++ ",\n" ++ rr)

end

/-- formatJSONError (main.go lines 155-157). -/
def formatJSONError (message details : String) : String :=
  "\x7b \"error\": \"" ++ message ++ "\", \"details\": \"" ++ details ++ "\" \x7d"

/-- truncateString (main.go lines 159-164). -/
def truncateString (str : String) (length : Nat) : String :=
  if str.length ≤ length then str else strTake str length ++ "..."

/-- What the HTTP round trip of `client.Get` hands FetchData: the status
code, the Content-Type header, what `io.ReadAll(resp.Body)` returns as data,
and the error `io.ReadAll` returns alongside it (`none` = nil). -/
structure HTTPResponse where
  statusCode : Nat
  contentType : String
  bodyData : String
  readError : Option String

/-- Outcome of `client.Get(url)`: a transport error or a response. -/
inductive GetResult where
  | failure : String → GetResult
  | success : HTTPResponse → GetResult

/-- FetchData (main.go lines 111-142), as a function of the round-trip
outcome.  `isJSON` abstracts the external `encoding/json` validity check of
main.go lines 150-153 (`json.Unmarshal` into a RawMessage succeeding).  The
pair returned is Go's `(string, error)`; every `return` in the source
carries a nil error, hence `none` everywhere.  Note the non-JSON branch
reads the body with `body, _ := io.ReadAll` and ignores the read error. -/
def fetchData (isJSON : String → Bool) : GetResult → String × Option String
  | .failure msg => (formatJSONError "failed to make the request" msg, none)
  | .success resp =>
    if resp.statusCode ≠ 200 then
      (formatJSONError "received non-200 response code" (toString resp.statusCode), none)
    else if ¬ strContains resp.contentType "application/json" then
      (formatJSONError "response is not JSON" (truncateString resp.bodyData 100), none)
    else
      match resp.readError with
      | some e => (formatJSONError "failed to read the response body" e, none)
      | none =>
        if ¬ isJSON resp.bodyData then
          (formatJSONError "invalid JSON format" resp.bodyData, none)
        else (resp.bodyData, none)

mutual

/-- A node of the parsed HTML tree (golang.org/x/net/html): the Document
root, an Element with a tag and ordered children (attributes are parsed but
never re-emitted, so they are not modelled), or a Text run. -/
inductive HNode where
  | document : HNodes → HNode
  | element : String → HNodes → HNode
  | text : String → HNode

/-- Ordered children of an HTML node. -/
inductive HNodes where
  | nil : HNodes
  | cons : HNode → HNodes → HNodes

end

mutual

/-- Modelled from the spec: the HTML renderer behind `formatHTMLText`, which
is absent from src (only its test calls it).  Spec 4.2: Document and `head`
nodes are transparent (children at the same level, no tag emitted); an
Element whose only child is a Text node collapses to
`<indent><tag>trimmed-text</tag>\n`; any other Element emits
`<indent><tag>\n`, its children at level+1, then `<indent></tag>\n`; a
standalone Text node emits `<indent>trimmed-text\n` when its trimmed text is
non-empty and nothing otherwise. -/
def renderHNode : HNode → Nat → String
  | .document cs, level => renderHNodes cs level
  | .element tag cs, level =>
    if tag = "head" then renderHNodes cs level
    else
      match cs with
      | .cons (.text t) .nil =>
          goRepeat indentation level ++ "<" ++ tag ++ ">" ++ trimSpace t
            ++ "</" ++ tag ++ ">\n"
      | _ =>
          goRepeat indentation level ++ "<" ++ tag ++ ">\n"
            ++ renderHNodes cs (level + 1)
            ++ goRepeat indentation level ++ "</" ++ tag ++ ">\n"
  | .text t, level =>
    if trimSpace t = "" then ""
    else goRepeat indentation level ++ trimSpace t ++ "\n"

/-- Depth-first, pre-order rendering of a child list, all at one level. -/
def renderHNodes : HNodes → Nat → String
  | .nil, _ => ""
  | .cons n rest, level => renderHNode n level ++ renderHNodes rest level

end

/-- The HTML5 parse tree of `<html><body><p>Hello, World!</p></body></html>`:
the parser materialises `head`, so the document's sole child `html` has
children `head` (empty) and `body`, and `body` contains `p` whose only
child is the text run. -/
def helloWorldDoc : HNode :=
  .document (.cons (.element "html"
    (.cons (.element "head" .nil)
      (.cons (.element "body"
        (.cons (.element "p" (.cons (.text "Hello, World!") .nil)) .nil))
        .nil)))
    .nil)

/-- Split a list at the LAST occurrence of `c`: `some (before, after)`,
neither part containing that occurrence; `none` when `c` is absent.
Models Go `strings.LastIndex`. -/
def splitAtLast (c : Char) : List Char → Option (List Char × List Char)
  | [] => none
  | x :: xs =>
    match splitAtLast c xs with
    | some (pre, post) => some (x :: pre, post)
    | none => if x = c then some ([], xs) else none

/-- Hexadecimal digit, Go `ishex`. -/
def isHexChar (c : Char) : Bool :=
  c.isDigit || (decide ('a' ≤ c) && decide (c ≤ 'f'))
    || (decide ('A' ≤ c) && decide (c ≤ 'F'))

/-- Every `%` begins a valid two-hex-digit escape; Go `unescape` fails
otherwise. -/
def percentOk : List Char → Bool
  | [] => true
  | '%' :: a :: b :: rest => isHexChar a && isHexChar b && percentOk rest
  | '%' :: _ => false
  | _ :: rest => percentOk rest

/-- Go `validOptionalPort`: empty, or a colon followed by decimal digits. -/
def validOptionalPort : List Char → Bool
  | [] => true
  | ':' :: digits => digits.all Char.isDigit
  | _ => false

/-- Go `validUserinfo`: letters, digits, and a fixed punctuation set. -/
def validUserinfo (u : List Char) : Bool :=
  u.all fun c => c.isAlpha || c.isDigit ||
    ['-', '.', '_', ':', '~', '!', '$', '&', '\'', '(', ')', '*', '+',
      ',', ';', '=', '%', '@'].contains c

/-- Go `parseHost`: a bracketed host needs a closing bracket and a valid
optional port after it; a bare host may end in a valid `:port`; percent
escapes must be well-formed.  The returned Host keeps its port. -/
def parseHost (h : List Char) : Option (List Char) :=
  match h with
  | '[' :: _ =>
    match splitAtLast ']' h with
    | none => none
    | some (_, post) =>
      if validOptionalPort post && percentOk h then some h else none
  | _ =>
    match splitAtLast ':' h with
    | none => if percentOk h then some h else none
    | some (_, post) =>
      if validOptionalPort (':' :: post) && percentOk h then some h else none

/-- Go `parseAuthority`: userinfo before the LAST `@` (validated), host
after it. -/
def parseAuthority (auth : List Char) : Option (List Char) :=
  match splitAtLast '@' auth with
  | none => parseHost auth
  | some (userinfo, hostPart) =>
    if validUserinfo userinfo && percentOk userinfo then parseHost hostPart
    else none

/-- Go `getScheme`: returns `(scheme, rest-after-colon)`; `([], original)`
when the string has no scheme; `none` for a colon at position zero
("missing protocol scheme").  `acc` holds the characters scanned so far,
`orig` the whole input. -/
def getSchemeAux (orig acc : List Char) : List Char → Option (List Char × List Char)
  | [] => some ([], orig)
  | c :: t =>
    if c.isAlpha then getSchemeAux orig (acc ++ [c]) t
    else if c.isDigit || c == '+' || c == '-' || c == '.' then
      if acc.isEmpty then some ([], orig) else getSchemeAux orig (acc ++ [c]) t
    else if c == ':' then
      if acc.isEmpty then none else some (acc, t)
    else some ([], orig)

/-- Go `getScheme` entry point. -/
def getScheme (s : List Char) : Option (List Char × List Char) :=
  getSchemeAux s [] s

/-- The two fields of `net/url.URL` that isValidURL inspects. -/
structure GoURL where
  scheme : String
  host : String

/-- Modelled from the Go standard library: `net/url.ParseRequestURI`, i.e.
`parse(rawURL, viaRequest := true)`, restricted to the `Scheme` and `Host`
fields that isValidURL reads.  `none` is a parse error.  An empty string and
control bytes are rejected; the scheme is split off and lowercased; the part
before the first `?` is the path; a rest not starting with `/` is opaque
when a scheme is present and "invalid URI for request" otherwise; with a
scheme present, `//authority` is split off and the authority parsed into
userinfo and host; percent escapes in the path must be well-formed. -/
def parseRequestURI (s : String) : Option GoURL :=
  let cs := s.data
  if cs.isEmpty then none
  else if cs.any (fun c => decide (c.toNat < 32) || decide (c.toNat = 127)) then none
  else if s = "*" then some ⟨"", ""⟩
  else
    match getScheme cs with
    | none => none
    | some (schemeCs, rest0) =>
      let scheme := String.mk (schemeCs.map Char.toLower)
      let rest := rest0.takeWhile (fun c => c != '?')
      match rest with
      | '/' :: '/' :: tail =>
        if scheme = "" then
          if percentOk rest then some ⟨scheme, ""⟩ else none
        else
          let auth := tail.takeWhile (fun c => c != '/')
          let path := tail.dropWhile (fun c => c != '/')
          match parseAuthority auth with
          | none => none
          | some host =>
            if percentOk path then some ⟨scheme, String.mk host⟩ else none
      | '/' :: _ =>
        if percentOk rest then some ⟨scheme, ""⟩ else none
      | _ =>
        if scheme = "" then none else some ⟨scheme, ""⟩

/-- isValidURL (main.go lines 145-148): the parse must succeed and yield a
non-empty Scheme and a non-empty Host. -/
def isValidURL (input : String) : Bool :=
  match parseRequestURI input with
  | none => false
  | some u => decide (u.scheme ≠ "") && decide (u.host ≠ "")

/- ------------------------------------------------------------------
Theorems.  Helper lemmas first, then one theorem per claim.
------------------------------------------------------------------ -/

/-- Taking the length of the left part of an append returns that part. -/
theorem strTake_append_left (a b : String) : strTake (a ++ b) a.length = a := by
  cases a with
  | mk da =>
    cases b with
    | mk db =>
      show String.mk ((da ++ db).take da.length) = String.mk da
      rw [List.take_left]

/-- The buffer truncation of renderJSON never panics when the buffer starts
with a two-character opener: the truncation index is non-negative and within
bounds. -/
theorem goTruncateBuf_pre2 (pre s : String) (h : pre.length = 2) :
    ∃ t, goTruncateBuf (pre ++ s) (((pre ++ s).length : Int) - 2) = some t := by
  have hl : (pre ++ s).length = 2 + s.length := by rw [String.length_append, h]
  refine ⟨strTake (pre ++ s) ((((pre ++ s).length : Int) - 2).toNat), ?_⟩
  simp only [goTruncateBuf]
  rw [if_neg (by rw [hl]; omega), if_neg (by rw [hl]; omega)]

mutual

/-- renderJSON returns `some` on every value tree: the truncation step
never sees a buffer shorter than two characters. -/
theorem renderJSON_exists_some (st : Styles) :
    (v : JValue) → (l : Nat) → ∃ s, renderJSON st v l = some s
  | .obj ps, l => by
    obtain ⟨inner, hinner⟩ := renderMembers_exists_some st ps l
    obtain ⟨t, ht⟩ := goTruncateBuf_pre2 "\x7b\n" inner rfl
    refine ⟨t ++ "\n" ++ goRepeat indentation l ++ "\x7d", ?_⟩
    simp only [renderJSON]
    rw [hinner]
    simp only [Option.bind_eq_bind, Option.some_bind]
    rw [ht]
    rfl
  | .arr es, l => by
    obtain ⟨inner, hinner⟩ := renderElems_exists_some st es l
    obtain ⟨t, ht⟩ := goTruncateBuf_pre2 "[\n" inner rfl
    refine ⟨t ++ "\n" ++ goRepeat indentation l ++ "]", ?_⟩
    simp only [renderJSON]
    rw [hinner]
    simp only [Option.bind_eq_bind, Option.some_bind]
    rw [ht]
    rfl
  | .str s, l => ⟨_, rfl⟩
  | .num lit, l => ⟨_, rfl⟩
  | .bool b, l => ⟨_, rfl⟩
  | .null, l => ⟨_, rfl⟩
  | .other, l => ⟨_, rfl⟩

/-- The object loop of renderJSON returns `some` on every member list. -/
theorem renderMembers_exists_some (st : Styles) :
    (ps : JMembers) → (l : Nat) → ∃ s, renderMembers st ps l = some s
  | .nil, l => ⟨_, rfl⟩
  | .cons k v rest, l => by
    obtain ⟨rv, hv⟩ := renderJSON_exists_some st v (l + 1)
    obtain ⟨rr, hr⟩ := renderMembers_exists_some st rest l
    refine ⟨goRepeat indentation l ++ indentation ++ st.key (quoteStr k)
      ++ ": " ++ rv ++ ",\n" ++ rr, ?_⟩
    simp only [renderMembers]
    rw [hv]
    simp only [Option.bind_eq_bind, Option.some_bind]
    rw [hr]
    rfl

/-- The array loop of renderJSON returns `some` on every element list. -/
theorem renderElems_exists_some (st : Styles) :
    (es : JElems) → (l : Nat) → ∃ s, renderElems st es l = some s
  | .nil, l => ⟨_, rfl⟩
  | .cons v rest, l => by
    obtain ⟨rv, hv⟩ := renderJSON_exists_some st v (l + 1)
    obtain ⟨rr, hr⟩ := renderElems_exists_some st rest l
    refine ⟨goRepeat indentation l ++ indentation ++ rv ++ ",\n" ++ rr, ?_⟩
    simp only [renderElems]
    rw [hv]
    simp only [Option.bind_eq_bind, Option.some_bind]
    rw [hr]
    rfl

end

/-- Claim C1.  The claim states that renderJSON applied to an empty object
(resp. empty array) at any level yields exactly the two-character string
consisting of the braces (resp. brackets).  The code has no empty-container
guard: it writes the two-character opener, truncates the buffer by two
characters (erasing the opener entirely), and then writes newline, indent
and the closer.  This theorem evaluates the code at the failing inputs:
the empty object at level 0 renders to a newline followed by a closing
brace, not to the two braces, and likewise for the empty array. -/
theorem renderJSON_empty_container_eval :
    renderJSON noStyle (JValue.obj JMembers.nil) 0 = some "\n\x7d" ∧
    renderJSON noStyle (JValue.arr JElems.nil) 0 = some "\n]" ∧
    renderJSON noStyle (JValue.obj JMembers.nil) 1 = some "\n  \x7d" ∧
    renderJSON noStyle (JValue.obj JMembers.nil) 0 ≠ some "\x7b\x7d" ∧
    renderJSON noStyle (JValue.arr JElems.nil) 0 ≠ some "[]" := by
  decide

/-- Claim C2.  For every response whose status code is not 200, FetchData
returns the "received non-200 response code" error document carrying the
code as detail (and a nil Go error), for every content type, body, read
outcome and JSON-validity predicate: the body is neither read nor parsed. -/
theorem fetchData_non200_gating (isJSON : String → Bool) (code : Nat)
    (ct body : String) (re : Option String) (h : code ≠ 200) :
    fetchData isJSON (GetResult.success ⟨code, ct, body, re⟩)
      = (formatJSONError "received non-200 response code" (toString code), none) := by
  simp [fetchData, h]

/-- Witness for C2 at status code 404. -/
theorem fetchData_non200_gating_witness :
    fetchData (fun _ => true) (GetResult.success ⟨404, "application/json", "\x7b\x7d", none⟩)
      = (formatJSONError "received non-200 response code" (toString 404), none) :=
  fetchData_non200_gating (fun _ => true) 404 "application/json" "\x7b\x7d" none (by decide)

/-- Claim C3.  For every 200 response whose declared content type does not
contain "application/json", FetchData returns the "response is not JSON"
error document with the truncated body as detail, for every JSON-validity
predicate — in particular even when the body text is valid JSON — so the
body is never routed to the JSON renderer. -/
theorem fetchData_content_type_gating (isJSON : String → Bool)
    (ct body : String) (re : Option String)
    (h : strContains ct "application/json" = false) :
    fetchData isJSON (GetResult.success ⟨200, ct, body, re⟩)
      = (formatJSONError "response is not JSON" (truncateString body 100), none) := by
  simp [fetchData, h]

/-- Witness for C3: a body that is itself valid JSON, declared text/html. -/
theorem fetchData_content_type_gating_witness :
    fetchData (fun _ => true)
        (GetResult.success ⟨200, "text/html", "\x7b\"key\": \"value\"\x7d", none⟩)
      = (formatJSONError "response is not JSON"
          (truncateString "\x7b\"key\": \"value\"\x7d" 100), none) :=
  fetchData_content_type_gating (fun _ => true) "text/html" "\x7b\"key\": \"value\"\x7d" none
    (by decide)

/-- Claim C4.  Rendering the object with the single pair message ↦
"Hello, JSON!" at level 0 yields exactly the three-line block: opening
brace, the two-space-indented quoted key and quoted value, closing brace,
with no trailing newline — with identity styling exactly those characters,
and with marker styling the markers land on the quoted key and the quoted
string value only, never on the braces or the colon. -/
theorem renderJSON_hello_json_block :
    renderJSON noStyle
        (JValue.obj (JMembers.cons "message" (JValue.str "Hello, JSON!") JMembers.nil)) 0
      = some "\x7b\n  \"message\": \"Hello, JSON!\"\n\x7d" ∧
    renderJSON tagStyle
        (JValue.obj (JMembers.cons "message" (JValue.str "Hello, JSON!") JMembers.nil)) 0
      = some "\x7b\n  <key>\"message\"</key>: <str>\"Hello, JSON!\"</str>\n\x7d" := by
  decide

/-- Claim C5.  FetchData never returns a non-nil Go error, and on each of
the five failure paths â request failure, non-200 status, non-JSON content
type, body read failure, invalid JSON body â the returned string is exactly
the formatJSONError document for that path, with the fixed message text of
the error table and the path's detail; only on the all-checks-pass path is
the body returned. -/
theorem fetchData_failures_are_values (isJSON : String → Bool) :
    (∀ r, (fetchData isJSON r).2 = none) ∧
    (∀ m, (fetchData isJSON (GetResult.failure m)).1
        = formatJSONError "failed to make the request" m) ∧
    (∀ resp : HTTPResponse, resp.statusCode ≠ 200 →
        (fetchData isJSON (GetResult.success resp)).1
          = formatJSONError "received non-200 response code"
              (toString resp.statusCode)) ∧
    (∀ resp : HTTPResponse, resp.statusCode = 200 →
        strContains resp.contentType "application/json" = false →
        (fetchData isJSON (GetResult.success resp)).1
          = formatJSONError "response is not JSON"
              (truncateString resp.bodyData 100)) ∧
    (∀ (resp : HTTPResponse) (e : String), resp.statusCode = 200 →
        strContains resp.contentType "application/json" = true →
        resp.readError = some e →
        (fetchData isJSON (GetResult.success resp)).1
          = formatJSONError "failed to read the response body" e) ∧
    (∀ resp : HTTPResponse, resp.statusCode = 200 →
        strContains resp.contentType "application/json" = true →
        resp.readError = none →
        isJSON resp.bodyData = false →
        (fetchData isJSON (GetResult.success resp)).1
          = formatJSONError "invalid JSON format" resp.bodyData) ∧
    (∀ resp : HTTPResponse, resp.statusCode = 200 →
        strContains resp.contentType "application/json" = true →
        resp.readError = none →
        isJSON resp.bodyData = true →
        (fetchData isJSON (GetResult.success resp)).1 = resp.bodyData) := by
  refine ⟨?_, ?_, ?_, ?_, ?_, ?_, ?_⟩
  · intro r
    cases r with
    | failure m => rfl
    | success resp =>
      by_cases h1 : resp.statusCode = 200
      · by_cases h2 : strContains resp.contentType "application/json" = true
        · cases hre : resp.readError with
          | some e => simp [fetchData, h1, h2, hre]
          | none =>
            by_cases h3 : isJSON resp.bodyData = true
            · simp [fetchData, h1, h2, hre, h3]
            · simp [fetchData, h1, h2, hre, h3]
        · simp [fetchData, h1, h2]
      · simp [fetchData, h1]
  · intro m
    rfl
  · intro resp h1
    simp [fetchData, h1]
  · intro resp h1 h2
    simp [fetchData, h1, h2]
  · intro resp e h1 h2 hre
    simp [fetchData, h1, h2, hre]
  · intro resp h1 h2 hre h3
    simp [fetchData, h1, h2, hre, h3]
  · intro resp h1 h2 hre h3
    simp [fetchData, h1, h2, hre, h3]

/-- Witness for C5, at the two deepest failure paths: a 200 application/json
response whose body read fails, and one whose body is not valid JSON. -/
theorem fetchData_failures_are_values_witness :
    (fetchData (fun _ => false)
        (GetResult.success ⟨200, "application/json", "not json", none⟩)).1
      = formatJSONError "invalid JSON format" "not json" ∧
    (fetchData (fun _ => false)
        (GetResult.success ⟨200, "application/json", "", some "read failed"⟩)).1
      = formatJSONError "failed to read the response body" "read failed" :=
  ⟨(fetchData_failures_are_values (fun _ => false)).2.2.2.2.2.1
      ⟨200, "application/json", "not json", none⟩ rfl (by decide) rfl rfl,
    (fetchData_failures_are_values (fun _ => false)).2.2.2.2.1
      ⟨200, "application/json", "", some "read failed"⟩ "read failed"
      rfl (by decide) rfl⟩

/-- Claim C6.  Truncation boundary: for every string strictly longer than
the maximum, truncateString returns the first maximum characters followed
by the three-character ellipsis marker, so the result's length is the
maximum plus three; and in FetchData the truncation is applied to the
display string at the point the error document is built (the body as
displayed), not to the response before classification. -/
theorem truncateString_boundary :
    (∀ (s : String) (n : Nat), n < s.length →
        truncateString s n = strTake s n ++ "..." ∧
          (truncateString s n).length = n + 3) ∧
    (∀ (isJSON : String → Bool) (resp : HTTPResponse),
        resp.statusCode = 200 →
        strContains resp.contentType "application/json" = false →
        (fetchData isJSON (GetResult.success resp)).1
          = formatJSONError "response is not JSON"
              (truncateString resp.bodyData 100)) := by
  constructor
  · intro s n h
    have hne : ¬ s.length ≤ n := by omega
    constructor
    · simp [truncateString, hne]
    · have hds : s.length = s.data.length := rfl
      have hlen : (strTake s n).length = n := by
        show (s.data.take n).length = n
        rw [List.length_take]
        omega
      simp only [truncateString, if_neg hne]
      rw [String.length_append, hlen]
      rfl
  · intro isJSON resp h1 h2
    cases resp with
    | mk code ct body re =>
      simp only at h1 h2
      subst h1
      simp [fetchData, h2]

/-- Witness for C6: the test-suite example, and a plain-text 200 response. -/
theorem truncateString_boundary_witness :
    (truncateString "this is a long string" 10
        = strTake "this is a long string" 10 ++ "..." ∧
      (truncateString "this is a long string" 10).length = 10 + 3) ∧
    (fetchData (fun _ => true)
        (GetResult.success ⟨200, "text/plain", "Hello, plain text!", none⟩)).1
      = formatJSONError "response is not JSON"
          (truncateString "Hello, plain text!" 100) :=
  ⟨truncateString_boundary.1 "this is a long string" 10 (by decide),
    truncateString_boundary.2 (fun _ => true)
      ⟨200, "text/plain", "Hello, plain text!", none⟩ rfl (by decide)⟩

/-- Claim C7, counterexample.  Two objects holding the same key/value pairs
(the member lists are permutations of each other, as Go's unspecified map
iteration order permits across two evaluations on the same map) render to
different strings at the same level, so the output is not a function of the
pair set alone. -/
theorem renderJSON_map_order_counterexample :
    List.Perm
      (JMembers.toList
        (JMembers.cons "a" (JValue.str "x")
          (JMembers.cons "b" (JValue.str "y") JMembers.nil)))
      (JMembers.toList
        (JMembers.cons "b" (JValue.str "y")
          (JMembers.cons "a" (JValue.str "x") JMembers.nil))) ∧
    renderJSON noStyle
        (JValue.obj (JMembers.cons "a" (JValue.str "x")
          (JMembers.cons "b" (JValue.str "y") JMembers.nil))) 0
      ≠ renderJSON noStyle
        (JValue.obj (JMembers.cons "b" (JValue.str "y")
          (JMembers.cons "a" (JValue.str "x") JMembers.nil))) 0 := by
  constructor
  · simp only [JMembers.toList]
    exact List.Perm.swap _ _ _
  · decide

/-- Claim C7, amended.  renderJSON is referentially transparent given the
styling configuration, the value tree — an object taken together with its
key enumeration order — and the level: equal inputs yield equal output
strings.  (Objects equal merely as sets of pairs need not render equally.) -/
theorem renderJSON_deterministic (st st' : Styles) (v v' : JValue) (l l' : Nat)
    (hst : st = st') (hv : v = v') (hl : l = l') :
    renderJSON st v l = renderJSON st' v' l' := by
  subst hst; subst hv; subst hl; rfl

/-- Witness for the amended C7. -/
theorem renderJSON_deterministic_witness :
    renderJSON noStyle (JValue.str "x") 0 = renderJSON noStyle (JValue.str "x") 0 :=
  renderJSON_deterministic noStyle noStyle (JValue.str "x") (JValue.str "x") 0 0
    rfl rfl rfl

/-- Claim C8.  Rendering the parse tree of
`<html><body><p>Hello, World!</p></body></html>` yields exactly the five
newline-terminated lines of the spec: `p`, whose only child is a text node,
collapses onto one line with its trimmed text; `body` and `html`, whose
only child is an element, expand with two spaces of indentation per level;
the parser-inserted empty `head` is transparent.  The second conjunct
shows the trimming and per-level indentation of the collapsing rule in
isolation. -/
theorem renderHTML_hello_world_collapsing :
    renderHNode helloWorldDoc 0
      = "<html>\n  <body>\n    <p>Hello, World!</p>\n  </body>\n</html>\n" ∧
    renderHNode
        (HNode.element "p" (HNodes.cons (HNode.text "  Hello, World!  ") HNodes.nil)) 1
      = "  <p>Hello, World!</p>\n" := by
  decide

/-- Claim C9.  renderJSON is total on every (finite, acyclic) value tree:
for every styling configuration, value and level it returns an actual
string — the buffer-truncation step never panics, because the buffer always
starts with the two-character opener — and a value whose dynamic type
matches none of the six handled cases contributes the empty string rather
than an error. -/
theorem renderJSON_total_no_panic :
    (∀ (st : Styles) (v : JValue) (level : Nat), ∃ s, renderJSON st v level = some s) ∧
    (∀ (st : Styles) (level : Nat), renderJSON st JValue.other level = some "") :=
  ⟨fun st v l => renderJSON_exists_some st v l, fun _ _ => rfl⟩

/-- Claim C10.  isValidURL accepts exactly the strings that parse as a
request URI with a non-empty scheme and a non-empty host: any scheme is
accepted (ftp included), while the empty string, scheme-less strings and
host-less strings are rejected. -/
theorem isValidURL_characterization :
    (∀ s : String, isValidURL s = true ↔
        ∃ u, parseRequestURI s = some u ∧ u.scheme ≠ "" ∧ u.host ≠ "") ∧
    isValidURL "ftp://example.com" = true ∧
    isValidURL "https://www.example.com" = true ∧
    isValidURL "http://example.com" = true ∧
    isValidURL "" = false ∧
    isValidURL "not-a-url" = false ∧
    isValidURL "http://" = false := by
  refine ⟨?_, by decide, by decide, by decide, by decide, by decide, by decide⟩
  intro s
  cases h : parseRequestURI s with
  | none => simp [isValidURL, h]
  | some u => simp [isValidURL, h]

end GoForth
